import Mathlib

/-!
Verification of the media-info report parser and capacity resolver of
`disc_append.py` (functions `build_media_info_tree` and `parse_media_info`).

Python strings are embedded as `List Char`; the helpers `pyStrip`, `pySplit`
and `pyInt?` model `str.strip()`, `str.split(sep)` and `int(...)` (restricted
to ASCII digits, which covers every value the reports carry).  Python `dict`
values keep insertion order and update values in place, which `dictInsert`
reproduces.  Exceptions are modelled by `Except PyError`; the constructors are
named after the Python exception classes the source can raise.
-/

set_option autoImplicit false

namespace DiscAppend

/-- Whitespace recognised by Python's `str.strip()` (ASCII range). -/
def pyIsSpace (c : Char) : Bool :=
  c == ' ' || c == '\t' || c == '\n' || c == '\r' || c == '\x0b' || c == '\x0c'

/-- Python `s.strip()`: remove leading and trailing whitespace. -/
def pyStrip (s : List Char) : List Char :=
  ((s.dropWhile pyIsSpace).reverse.dropWhile pyIsSpace).reverse

/-- Python `s.split(sep)` for a one-character separator: the list of chunks
between occurrences of `sep`; on the empty string it returns `[""]`. -/
def pySplit (sep : Char) : List Char → List (List Char)
  | [] => [[]]
  | c :: rest =>
    if c = sep then
      [] :: pySplit sep rest
    else
      match pySplit sep rest with
      | [] => [[c]]
      | p :: ps => (c :: p) :: ps

/-- Numeric value of a digit string (most significant first). -/
def digitsVal (ds : List Char) : Nat :=
  ds.foldl (fun acc c => 10 * acc + (c.toNat - 48)) 0

/-- Is `ds` a nonempty string of ASCII digits? -/
def pyDigits (ds : List Char) : Bool :=
  decide (ds ≠ []) && ds.all Char.isDigit

/-- Python `int(s)`: strip whitespace, optional sign, then digits; `none`
models the `ValueError` raised on anything else. -/
def pyInt? (s : List Char) : Option Int :=
  match pyStrip s with
  | '+' :: ds => if pyDigits ds then some ((digitsVal ds : Nat) : Int) else none
  | '-' :: ds => if pyDigits ds then some (-((digitsVal ds : Nat) : Int)) else none
  | ds => if pyDigits ds then some ((digitsVal ds : Nat) : Int) else none

/-- The Python exceptions the parser can raise. -/
inductive PyError where
  | valueError
  | typeError
  | keyError
  | attributeError
  | unboundLocalError
deriving DecidableEq, Repr

/-- A value of the two-level report tree: a bare `key: value` line or a
section header with indented sub-fields (`dict[str, str]` in the source). -/
inductive SectionValue where
  | scalar (s : List Char)
  | group (fields : List (List Char × List Char))
deriving DecidableEq, Repr

/-- `MediaInfoTree = dict[str, Union[str, dict[str, str]]]`, in insertion
order. -/
abbrev MediaInfoTree := List (List Char × SectionValue)

/-- Python `d[k] = v`: update the value in place if the key is present
(keeping its position), otherwise append at the end. -/
def dictInsert {β : Type} (k : List Char) (v : β) :
    List (List Char × β) → List (List Char × β)
  | [] => [(k, v)]
  | (k', v') :: rest =>
    if k' = k then (k, v) :: rest else (k', v') :: dictInsert k v rest

/-- Python `d[k]` as an `Option` (a `none` lookup raises `KeyError` at the
use sites). -/
def dictLookup {β : Type} (k : List Char) :
    List (List Char × β) → Option β
  | [] => none
  | (k', v') :: rest => if k' = k then some v' else dictLookup k rest

/-- State of the tree builder: the accumulated tree and the key of the
currently open group (`current_child` in the source; the open group's dict
always lives in the tree at that key, so a key is a faithful stand-in for the
Python reference). -/
structure BuildState where
  tree : MediaInfoTree
  current : Option (List Char)
deriving Repr

/-- Insert `sk ↦ sv` into the open group named `ck` (the source mutates the
dict `current_child`, which is the tree entry at that key; the entry is a
group whenever `current` is set, so the scalar branch is unreachable). -/
def updateGroup (t : MediaInfoTree) (ck sk sv : List Char) : MediaInfoTree :=
  t.map fun kv =>
    if kv.1 = ck then
      match kv.2 with
      | SectionValue.group fs => (kv.1, SectionValue.group (dictInsert sk sv fs))
      | SectionValue.scalar s => (kv.1, SectionValue.scalar s)
    else kv

/-- One iteration of the line loop of `build_media_info_tree`.  Blank lines
and lines starting with `:` are skipped; an indented line is split on `:` and
stored in the open group (`ValueError` if the split does not give exactly two
parts, `TypeError` if no group is open); any other line is split on `:` and
recorded as a scalar (non-empty value, closing the open group) or as a newly
opened empty group (empty value). -/
def processLine (st : BuildState) (line : List Char) : Except PyError BuildState :=
  if pyStrip line = [] then .ok st
  else if line.head? = some ':' then .ok st
  else if line.head? = some ' ' then
    match pySplit ':' line with
    | [child_child_key, child_child_value] =>
      match st.current with
      | some ck =>
        .ok { st with
              tree := updateGroup st.tree ck
                (pyStrip child_child_key) (pyStrip child_child_value) }
      | none => .error .typeError
    | _ => .error .valueError
  else
    match pySplit ':' line with
    | [child_key, child_value_str] =>
      let key := pyStrip child_key
      let value := pyStrip child_value_str
      if value = [] then
        .ok { tree := dictInsert key (SectionValue.group []) st.tree
              current := some key }
      else
        .ok { tree := dictInsert key (SectionValue.scalar value) st.tree
              current := none }
    | _ => .error .valueError

/-- Fold `processLine` over the lines, propagating the first exception. -/
def buildLines : List (List Char) → BuildState → Except PyError MediaInfoTree
  | [], st => .ok st.tree
  | l :: ls, st =>
    match processLine st l with
    | .ok st' => buildLines ls st'
    | .error e => .error e

/-- `build_media_info_tree(info)`: split on newlines and process each line. -/
def build_media_info_tree (info : List Char) : Except PyError MediaInfoTree :=
  buildLines (pySplit '\n' info) ⟨[], none⟩

/-- The result record of `parse_media_info` (sizes in bytes; Python integers
are unbounded and `used_size` can go negative, hence `Int`). -/
structure MediaInfo where
  total_size : Int
  free_size : Int
  used_size : Int
  is_blank : Bool
deriving DecidableEq, Repr

def kRFC : List Char := "READ FORMAT CAPACITIES".toList

def k00h : List Char := "00h(3000)".toList

def kRC : List Char := "READ CAPACITY".toList

def kRDI : List Char := "READ DISC INFORMATION".toList

def kDS : List Char := "Disc status".toList

def kFB : List Char := "Free Blocks".toList

def blankStr : List Char := "blank".toList

/-- First chunk of `s.split('*')` (always defined: `split` never returns an
empty list). -/
def firstPart (s : List Char) : List Char :=
  match pySplit '*' s with
  | p :: _ => p
  | [] => []

/-- The `except KeyError` fallback of the total-size computation:
`media_info_tree['READ CAPACITY'].split('*')`; a missing key raises
`KeyError`, a group value has no `.split` and raises `AttributeError`, and a
non-numeric leading chunk raises `ValueError` in `int`. -/
def totalFallback (t : MediaInfoTree) : Except PyError Int :=
  match dictLookup kRC t with
  | some (SectionValue.scalar s) =>
    match pyInt? (firstPart s) with
    | some n => .ok (n * 2048)
    | none => .error .valueError
  | some (SectionValue.group _) => .error .attributeError
  | none => .error .keyError

/-- Total-size resolution of `parse_media_info`: try
`media_info_tree['READ FORMAT CAPACITIES']['00h(3000)']`, falling back to
`'READ CAPACITY'` only on `KeyError`; indexing a scalar with a string raises
`TypeError`, which the `except KeyError` clause does not catch. -/
def totalSizeStep (t : MediaInfoTree) : Except PyError Int :=
  match dictLookup kRFC t with
  | some (SectionValue.group g) =>
    match dictLookup k00h g with
    | some v =>
      match pyInt? (firstPart v) with
      | some n => .ok (n * 2048)
      | none => .error .valueError
    | none => totalFallback t
  | some (SectionValue.scalar _) => .error .typeError
  | none => totalFallback t

/-- `media_info_tree['READ DISC INFORMATION']['Disc status']`: `KeyError`
when either key is missing, `TypeError` when the section is a scalar. -/
def discStatusStep (t : MediaInfoTree) : Except PyError (List Char) :=
  match dictLookup kRDI t with
  | some (SectionValue.group g) =>
    match dictLookup kDS g with
    | some v => .ok v
    | none => .error .keyError
  | some (SectionValue.scalar _) => .error .typeError
  | none => .error .keyError

/-- The `for _, child in media_info_tree.items()` loop searching for
`'Free Blocks'`: scalars raise `TypeError` (caught), groups without the key
raise `KeyError` (caught), and each hit overwrites `free_size`; a hit whose
leading chunk is not an integer raises an uncaught `ValueError`.  `acc` is
the current value of the `free_size` local (`none` = still unbound). -/
def freeSizeLoop : MediaInfoTree → Option Int → Except PyError (Option Int)
  | [], acc => .ok acc
  | (_, SectionValue.scalar _) :: rest, acc => freeSizeLoop rest acc
  | (_, SectionValue.group g) :: rest, acc =>
    match dictLookup kFB g with
    | none => freeSizeLoop rest acc
    | some v =>
      match pyInt? (firstPart v) with
      | some n => freeSizeLoop rest (some (n * 2048))
      | none => .error .valueError

/-- The body of `parse_media_info` after the tree is built: resolve the total
size, the disc status, then the free size (copied for blank discs, searched
in the groups otherwise; an unassigned `free_size` local raises
`UnboundLocalError` at `total_size - free_size`). -/
def resolveMediaInfo (t : MediaInfoTree) : Except PyError MediaInfo :=
  match totalSizeStep t with
  | .error e => .error e
  | .ok total_size =>
    match discStatusStep t with
    | .error e => .error e
    | .ok status =>
      let is_blank : Bool := decide (status = blankStr)
      if is_blank then
        .ok ⟨total_size, total_size, total_size - total_size, is_blank⟩
      else
        match freeSizeLoop t none with
        | .error e => .error e
        | .ok (some free_size) =>
          .ok ⟨total_size, free_size, total_size - free_size, is_blank⟩
        | .ok none => .error .unboundLocalError

/-- `parse_media_info(info)`: build the tree, then resolve the capacities. -/
def parse_media_info (info : List Char) : Except PyError MediaInfo :=
  match build_media_info_tree info with
  | .ok t => resolveMediaInfo t
  | .error e => .error e

/-- Does the builder skip this line (`not line.strip() or line[0] == ':'`)? -/
def skipLine (line : List Char) : Bool :=
  decide (pyStrip line = []) || decide (line.head? = some ':')

/-- Did the computation raise an exception? -/
def raisesException {α : Type} : Except PyError α → Bool
  | .error _ => true
  | .ok _ => false

/-- The `'Free Blocks'` values of the groups of `t`, in insertion order (the
values the free-size loop would try, last one winning). -/
def fbValues (t : MediaInfoTree) : List (List Char) :=
  t.filterMap fun kv =>
    match kv.2 with
    | SectionValue.group g => dictLookup kFB g
    | SectionValue.scalar _ => none

/-- Is this section a group carrying a `'Free Blocks'` sub-field? -/
def groupHasFB : SectionValue → Bool
  | SectionValue.group g => (dictLookup kFB g).isSome
  | SectionValue.scalar _ => false

/-- Does `t` map `k` to a group carrying the sub-field `sk`? -/
def hasGroupSub (t : MediaInfoTree) (k sk : List Char) : Bool :=
  match dictLookup k t with
  | some (SectionValue.group g) => (dictLookup sk g).isSome
  | _ => false

/-- Does `t` map `k` to a scalar? -/
def isScalarAt (t : MediaInfoTree) (k : List Char) : Bool :=
  match dictLookup k t with
  | some (SectionValue.scalar _) => true
  | _ => false

/-- Well-formedness of the line list for the builder, tracking whether a
group is open: every non-skipped line splits on `:` into exactly two parts
and indented lines occur only while a group is open.  Under this predicate
the builder cannot raise. -/
def wfLinesAux : List (List Char) → Bool → Bool
  | [], _ => true
  | l :: ls, op =>
    if pyStrip l = [] then wfLinesAux ls op
    else if l.head? = some ':' then wfLinesAux ls op
    else if l.head? = some ' ' then
      decide ((pySplit ':' l).length = 2) && op && wfLinesAux ls op
    else
      match pySplit ':' l with
      | [_, v] => wfLinesAux ls (decide (pyStrip v = []))
      | _ => false

/-- Well-formedness of a whole report text. -/
def wfReport (info : List Char) : Bool :=
  wfLinesAux (pySplit '\n' info) false

/-- A top-level report line `k ++ ":" ++ v` (a scalar line when `v` strips to
something non-empty, a group header when it strips to nothing). -/
def topLine (k v : List Char) : List Char := k ++ ':' :: v

/-- An indented sub-field line `" " ++ sk ++ ":" ++ sv`. -/
def subLine (sk sv : List Char) : List Char := ' ' :: sk ++ ':' :: sv

/-- Three report lines joined by newlines. -/
def lines3 (l1 l2 l3 : List Char) : List Char :=
  l1 ++ '\n' :: l2 ++ '\n' :: l3

def c5tree : MediaInfoTree :=
  [(kRFC, SectionValue.group [(k00h, "11826176*2048=24220008448".toList)]),
   (kRDI, SectionValue.group [(kDS, blankStr)]),
   ("TRACK".toList, SectionValue.group [(kFB, "12219392*2KB".toList)])]

def c8tree : MediaInfoTree :=
  [(kRC, SectionValue.scalar "3*2048=6144".toList),
   (kRDI, SectionValue.group [(kDS, "appendable".toList)]),
   ("X".toList, SectionValue.group [("Track Size".toList, "5*2KB".toList)])]

def c1tree : MediaInfoTree :=
  [(kRC, SectionValue.scalar "12088320*2048=24756879360".toList),
   (kRDI, SectionValue.group [(kDS, "appendable".toList)]),
   ("READ TRACK INFORMATION[#1]".toList,
    SectionValue.group [(kFB, "0*2KB".toList)]),
   ("READ TRACK INFORMATION[#3]".toList,
    SectionValue.group [(kFB, "4162528*2KB".toList)])]

def c2ctree : MediaInfoTree :=
  [(kRFC, SectionValue.scalar "9*".toList),
   (kRC, SectionValue.scalar "100*2048".toList)]

def c2atree : MediaInfoTree :=
  [(kRFC, SectionValue.group [(k00h, "11826176*2048=24220008448".toList)]),
   (kRC, SectionValue.scalar "0*2048=0".toList)]

def c2btree : MediaInfoTree :=
  [(kRFC, SectionValue.group [("unformatted".toList, "1*2048".toList)]),
   (kRC, SectionValue.scalar "12088320*2048=24756879360".toList)]

def c7tree : MediaInfoTree := [(kRFC, SectionValue.scalar "x".toList)]

def c7atree : MediaInfoTree :=
  [(kRFC, SectionValue.group [("unformatted".toList, "1*2048".toList)]),
   (kRDI, SectionValue.group [(kDS, blankStr)])]

def c7btree : MediaInfoTree :=
  [(kRC, SectionValue.scalar "7*2048".toList),
   (kRDI, SectionValue.group [("Number of Sessions".toList, "1".toList)])]

def c6info : List Char :=
  ("READ CAPACITY: 1*2048\nREAD DISC INFORMATION:\n Disc status: appendable"
    ++ "\nX:\n Free Blocks: 100*2KB").toList

def c6winfo : List Char :=
  "READ CAPACITY: 2*2048\nREAD DISC INFORMATION:\n Disc status: blank".toList

/-! ### Lemmas about the string helpers -/

theorem pySplit_ne_nil (sep : Char) (l : List Char) : pySplit sep l ≠ [] := by
  induction l with
  | nil => simp [pySplit]
  | cons c rest ih =>
    rw [pySplit]
    split
    · simp
    · match h : pySplit sep rest with
      | [] => simp
      | p :: ps => simp

theorem pySplit_no_sep {sep : Char} {l : List Char} (h : sep ∉ l) :
    pySplit sep l = [l] := by
  induction l with
  | nil => rfl
  | cons c rest ih =>
    have hc : ¬c = sep := fun hcs => h (hcs ▸ List.mem_cons_self c rest)
    have hrest : sep ∉ rest := fun hm => h (List.mem_cons_of_mem c hm)
    rw [pySplit, if_neg hc, ih hrest]

theorem pySplit_append {sep : Char} {l₁ : List Char} (l₂ : List Char)
    (h : sep ∉ l₁) :
    pySplit sep (l₁ ++ sep :: l₂) = l₁ :: pySplit sep l₂ := by
  induction l₁ with
  | nil => simp [pySplit]
  | cons c rest ih =>
    have hc : ¬c = sep := fun hcs => h (hcs ▸ List.mem_cons_self c rest)
    have hrest : sep ∉ rest := fun hm => h (List.mem_cons_of_mem c hm)
    rw [List.cons_append, pySplit, if_neg hc, ih hrest]

theorem pySplit_length (sep : Char) (l : List Char) :
    (pySplit sep l).length = l.count sep + 1 := by
  induction l with
  | nil => simp [pySplit]
  | cons c rest ih =>
    rw [pySplit]
    split
    · rename_i hc
      simp [List.count_cons, hc, ih]
    · rename_i hc
      match h : pySplit sep rest with
      | [] => exact absurd h (pySplit_ne_nil sep rest)
      | p :: ps =>
        rw [h] at ih
        simp only [List.length_cons] at ih ⊢
        rw [List.count_cons]
        simp [hc, ih]

theorem mem_dropWhile {p : Char → Bool} {c : Char} (hpc : p c = false) :
    ∀ {l : List Char}, c ∈ l → c ∈ l.dropWhile p := by
  intro l
  induction l with
  | nil => intro h; exact absurd h (List.not_mem_nil c)
  | cons x xs ih =>
    intro hmem
    rw [List.dropWhile_cons]
    split
    · rename_i hx
      rcases List.mem_cons.mp hmem with hcx | hcs
      · rw [hcx] at hpc; rw [hpc] at hx; exact absurd hx (by simp)
      · exact ih hcs
    · exact hmem

theorem pyStrip_ne_nil {c : Char} {l : List Char} (hc : c ∈ l)
    (hs : pyIsSpace c = false) : pyStrip l ≠ [] := by
  intro h
  rw [pyStrip, List.reverse_eq_nil_iff, List.dropWhile_eq_nil_iff] at h
  have h1 : c ∈ l.dropWhile pyIsSpace := mem_dropWhile hs hc
  have h2 : c ∈ (l.dropWhile pyIsSpace).reverse := List.mem_reverse.mpr h1
  rw [h c h2] at hs
  exact absurd hs (by simp)

theorem pyStrip_cons_space (l : List Char) : pyStrip (' ' :: l) = pyStrip l := by
  rw [pyStrip, pyStrip, List.dropWhile_cons]
  norm_num [pyIsSpace]

theorem head?_append_of_ne_nil {k : List Char} (l : List Char) (h : k ≠ []) :
    (k ++ l).head? = k.head? := by
  cases k with
  | nil => exact absurd rfl h
  | cons c rest => rfl

/-! ### Lemmas about the tree builder -/

theorem processLine_skip {st : BuildState} {line : List Char}
    (h : skipLine line = true) : processLine st line = .ok st := by
  rw [skipLine, Bool.or_eq_true, decide_eq_true_eq, decide_eq_true_eq] at h
  by_cases h1 : pyStrip line = []
  · simp [processLine, h1]
  · rcases h with h | h
    · exact absurd h h1
    · simp [processLine, h1, h]

theorem processLine_indent_ok {st : BuildState} {line a b : List Char}
    {ck : List Char} (h1 : pyStrip line ≠ []) (h3 : line.head? = some ' ')
    (hp : pySplit ':' line = [a, b]) (hc : st.current = some ck) :
    processLine st line =
      .ok { st with tree := updateGroup st.tree ck (pyStrip a) (pyStrip b) } := by
  have h2 : ¬line.head? = some ':' := by rw [h3]; simp
  simp [processLine, h1, h2, h3, hp, hc]

theorem processLine_indent_none {st : BuildState} {line a b : List Char}
    (h1 : pyStrip line ≠ []) (h3 : line.head? = some ' ')
    (hp : pySplit ':' line = [a, b]) (hc : st.current = none) :
    processLine st line = .error .typeError := by
  have h2 : ¬line.head? = some ':' := by rw [h3]; simp
  simp [processLine, h1, h2, h3, hp, hc]

theorem processLine_top_scalar {st : BuildState} {line a b : List Char}
    (h1 : pyStrip line ≠ []) (h2 : ¬line.head? = some ':')
    (h3 : ¬line.head? = some ' ') (hp : pySplit ':' line = [a, b])
    (hb : pyStrip b ≠ []) :
    processLine st line =
      .ok ⟨dictInsert (pyStrip a) (SectionValue.scalar (pyStrip b)) st.tree,
           none⟩ := by
  simp [processLine, h1, h2, h3, hp, hb]

theorem processLine_top_group {st : BuildState} {line a b : List Char}
    (h1 : pyStrip line ≠ []) (h2 : ¬line.head? = some ':')
    (h3 : ¬line.head? = some ' ') (hp : pySplit ':' line = [a, b])
    (hb : pyStrip b = []) :
    processLine st line =
      .ok ⟨dictInsert (pyStrip a) (SectionValue.group []) st.tree,
           some (pyStrip a)⟩ := by
  simp [processLine, h1, h2, h3, hp, hb]

theorem processLine_split_bad {st : BuildState} {line : List Char}
    (h1 : pyStrip line ≠ []) (h2 : ¬line.head? = some ':')
    (hlen : (pySplit ':' line).length ≠ 2) :
    processLine st line = .error .valueError := by
  by_cases h3 : line.head? = some ' ' <;>
  · rcases hp : pySplit ':' line with _ | ⟨a, _ | ⟨b, _ | ⟨c, ds⟩⟩⟩ <;>
      simp [hp] at hlen ⊢ <;>
      simp [processLine, h1, h2, h3, hp]

theorem buildLines_cons_ok {st st' : BuildState} {l : List Char}
    (ls : List (List Char)) (h : processLine st l = .ok st') :
    buildLines (l :: ls) st = buildLines ls st' := by
  rw [buildLines, h]

theorem buildLines_cons_error {st : BuildState} {l : List Char} {e : PyError}
    (ls : List (List Char)) (h : processLine st l = .error e) :
    buildLines (l :: ls) st = .error e := by
  rw [buildLines, h]

theorem buildLines_skip_prefix {pre : List (List Char)}
    (ls : List (List Char)) (st : BuildState)
    (h : ∀ p ∈ pre, skipLine p = true) :
    buildLines (pre ++ ls) st = buildLines ls st := by
  induction pre with
  | nil => rfl
  | cons p ps ih =>
    rw [List.cons_append,
      buildLines_cons_ok (ps ++ ls) (processLine_skip (h p (by simp)))]
    exact ih fun q hq => h q (List.mem_cons_of_mem p hq)

/-! ### Lemmas about the free-size search loop -/

theorem fbValues_cons_scalar (k s : List Char) (rest : MediaInfoTree) :
    fbValues ((k, SectionValue.scalar s) :: rest) = fbValues rest := by
  simp [fbValues, List.filterMap_cons]

theorem fbValues_cons_group_none {g : List (List Char × List Char)}
    (k : List Char) (rest : MediaInfoTree) (h : dictLookup kFB g = none) :
    fbValues ((k, SectionValue.group g) :: rest) = fbValues rest := by
  simp [fbValues, List.filterMap_cons, h]

theorem fbValues_cons_group_some {g : List (List Char × List Char)}
    {w : List Char} (k : List Char) (rest : MediaInfoTree)
    (h : dictLookup kFB g = some w) :
    fbValues ((k, SectionValue.group g) :: rest) = w :: fbValues rest := by
  simp [fbValues, List.filterMap_cons, h]

theorem freeSizeLoop_of_fbValues_nil :
    ∀ {t : MediaInfoTree} (acc : Option Int), fbValues t = [] →
      freeSizeLoop t acc = .ok acc := by
  intro t
  induction t with
  | nil => intro acc _; rfl
  | cons kv rest ih =>
    intro acc h
    obtain ⟨k, child⟩ := kv
    cases child with
    | scalar s =>
      rw [fbValues_cons_scalar] at h
      rw [freeSizeLoop]
      exact ih acc h
    | group g =>
      cases hl : dictLookup kFB g with
      | none =>
        rw [fbValues_cons_group_none k rest hl] at h
        rw [freeSizeLoop, hl]
        exact ih acc h
      | some w =>
        rw [fbValues_cons_group_some k rest hl] at h
        exact absurd h (by simp)

theorem freeSizeLoop_of_no_group_fb :
    ∀ {t : MediaInfoTree} (acc : Option Int),
      (∀ kv ∈ t, groupHasFB kv.2 = false) → freeSizeLoop t acc = .ok acc := by
  intro t
  induction t with
  | nil => intro acc _; rfl
  | cons kv rest ih =>
    intro acc h
    have hrest : ∀ kv ∈ rest, groupHasFB kv.2 = false :=
      fun q hq => h q (List.mem_cons_of_mem kv hq)
    have hkv : groupHasFB kv.2 = false := h kv (by simp)
    obtain ⟨k, child⟩ := kv
    cases child with
    | scalar s => rw [freeSizeLoop]; exact ih acc hrest
    | group g =>
      cases hl : dictLookup kFB g with
      | some w => rw [groupHasFB, hl] at hkv; exact absurd hkv (by simp)
      | none => rw [freeSizeLoop, hl]; exact ih acc hrest

theorem freeSizeLoop_last :
    ∀ {t : MediaInfoTree} (acc : Option Int) {v : List Char} {n : Int},
      (∀ w ∈ fbValues t, (pyInt? (firstPart w)).isSome = true) →
      (fbValues t).getLast? = some v → pyInt? (firstPart v) = some n →
      freeSizeLoop t acc = .ok (some (n * 2048)) := by
  intro t
  induction t with
  | nil => intro acc v n _ hlast _; exact absurd hlast (by simp [fbValues])
  | cons kv rest ih =>
    intro acc v n hall hlast hv
    obtain ⟨k, child⟩ := kv
    cases child with
    | scalar s =>
      rw [fbValues_cons_scalar] at hall hlast
      rw [freeSizeLoop]
      exact ih acc hall hlast hv
    | group g =>
      cases hl : dictLookup kFB g with
      | none =>
        rw [fbValues_cons_group_none k rest hl] at hall hlast
        rw [freeSizeLoop, hl]
        exact ih acc hall hlast hv
      | some w =>
        rw [fbValues_cons_group_some k rest hl] at hall hlast
        have hw : (pyInt? (firstPart w)).isSome = true := hall w (by simp)
        rw [Option.isSome_iff_exists] at hw
        obtain ⟨m, hm⟩ := hw
        simp only [freeSizeLoop, hl, hm]
        cases hrest : fbValues rest with
        | nil =>
          rw [hrest] at hlast
          simp only [List.getLast?_singleton, Option.some.injEq] at hlast
          rw [hlast] at hm
          rw [hv] at hm
          cases hm
          exact freeSizeLoop_of_fbValues_nil _ hrest
        | cons w' ws =>
          rw [hrest] at hlast
          rw [List.getLast?_cons_cons] at hlast
          rw [← hrest] at hlast
          refine ih _ (fun u hu => hall u (List.mem_cons_of_mem w hu)) hlast hv

/-- Every record the resolver returns has `used_size` computed as
`total_size - free_size`. -/
theorem resolveMediaInfo_used {t : MediaInfoTree} {r : MediaInfo}
    (h : resolveMediaInfo t = .ok r) :
    r.used_size = r.total_size - r.free_size := by
  simp only [resolveMediaInfo] at h
  split at h
  · exact absurd h (by simp)
  · split at h
    · exact absurd h (by simp)
    · split at h
      · injection h with h'
        subst h'
        rfl
      · split at h
        · exact absurd h (by simp)
        · injection h with h'
          subst h'
          rfl
        · exact absurd h (by simp)

/-! ### Claim C5: blank discs -/

/-- C5: for every tree whose Group `READ DISC INFORMATION` has sub-field
`Disc status` equal to `blank` (and whose total size resolves, which the
resolver requires before looking at the status), the resolver returns
`is_blank = true`, `free_size = total_size` and `used_size = 0`; no
`Free Blocks` field is consulted (the conclusion holds for every tree,
whatever `Free Blocks` fields it carries). -/
theorem blank_disc_free_equals_total (t : MediaInfoTree)
    (g : List (List Char × List Char)) (total : Int)
    (hRDI : dictLookup kRDI t = some (SectionValue.group g))
    (hDS : dictLookup kDS g = some blankStr)
    (htot : totalSizeStep t = .ok total) :
    resolveMediaInfo t = .ok ⟨total, total, 0, true⟩ := by
  have hst : discStatusStep t = .ok blankStr := by
    simp only [discStatusStep, hRDI, hDS]
  simp only [resolveMediaInfo, htot, hst]
  simp

/-- C5 witness: the blank-disc scenario of the spec at a concrete tree. -/
theorem blank_disc_free_equals_total_witness :
    resolveMediaInfo c5tree = .ok ⟨11826176 * 2048, 11826176 * 2048, 0, true⟩ :=
  blank_disc_free_equals_total c5tree [(kDS, blankStr)] (11826176 * 2048)
    rfl rfl rfl

/-! ### Claim C8: non-blank disc without a `Free Blocks` field -/

/-- C8: for every tree whose total size resolves, whose `Disc status` is
present and differs from `blank`, and none of whose groups carries a
`Free Blocks` sub-field, the resolver raises instead of returning a record
(the `free_size` local is never assigned, so `total_size - free_size` raises
`UnboundLocalError`, the realisation of the spec's `MissingFreeSpaceError`). -/
theorem missing_free_blocks_fails (t : MediaInfoTree)
    (g : List (List Char × List Char)) (total : Int) (status : List Char)
    (htot : totalSizeStep t = .ok total)
    (hRDI : dictLookup kRDI t = some (SectionValue.group g))
    (hDS : dictLookup kDS g = some status)
    (hne : status ≠ blankStr)
    (hfb : ∀ kv ∈ t, groupHasFB kv.2 = false) :
    resolveMediaInfo t = .error .unboundLocalError := by
  have hst : discStatusStep t = .ok status := by
    simp only [discStatusStep, hRDI, hDS]
  have hb : decide (status = blankStr) = false := by simp [hne]
  have hfsl : freeSizeLoop t none = .ok none :=
    freeSizeLoop_of_no_group_fb none hfb
  simp only [resolveMediaInfo, htot, hst]
  simp [hb, hfsl]

/-- C8 witness: a concrete appendable tree with no `Free Blocks` anywhere. -/
theorem missing_free_blocks_fails_witness :
    resolveMediaInfo c8tree = .error .unboundLocalError :=
  missing_free_blocks_fails c8tree [(kDS, "appendable".toList)] (3 * 2048)
    ("appendable".toList) rfl rfl rfl (by decide) (by decide)

/-! ### Claim C1: the last `Free Blocks` group wins -/

/-- C1: for every tree whose total size resolves, whose `Disc status` is
present and not `blank`, and whose `Free Blocks` values all carry a leading
integer before `*`, the resolved `free_size` is the leading integer of the
`Free Blocks` value of the last group (in insertion order) carrying that
sub-field, times 2048; the conclusion depends only on that last value, so
earlier `Free Blocks` groups do not affect the result. -/
theorem free_size_uses_last_free_blocks (t : MediaInfoTree)
    (g : List (List Char × List Char)) (total : Int) (status v : List Char)
    (n : Int)
    (htot : totalSizeStep t = .ok total)
    (hRDI : dictLookup kRDI t = some (SectionValue.group g))
    (hDS : dictLookup kDS g = some status)
    (hne : status ≠ blankStr)
    (hall : ∀ w ∈ fbValues t, (pyInt? (firstPart w)).isSome = true)
    (hlast : (fbValues t).getLast? = some v)
    (hv : pyInt? (firstPart v) = some n) :
    resolveMediaInfo t = .ok ⟨total, n * 2048, total - n * 2048, false⟩ := by
  have hst : discStatusStep t = .ok status := by
    simp only [discStatusStep, hRDI, hDS]
  have hb : decide (status = blankStr) = false := by simp [hne]
  have hfsl : freeSizeLoop t none = .ok (some (n * 2048)) :=
    freeSizeLoop_last none hall hlast hv
  simp only [resolveMediaInfo, htot, hst]
  simp [hb, hfsl]

/-- C1 witness: two track groups carry `Free Blocks`; the later one decides
the free size (the spec's written-disc scenario). -/
theorem free_size_uses_last_free_blocks_witness :
    resolveMediaInfo c1tree =
      .ok ⟨12088320 * 2048, 4162528 * 2048,
           12088320 * 2048 - 4162528 * 2048, false⟩ :=
  free_size_uses_last_free_blocks c1tree [(kDS, "appendable".toList)]
    (12088320 * 2048) ("appendable".toList) ("4162528*2KB".toList) 4162528
    rfl rfl rfl (by decide) (by decide) rfl rfl

/-! ### Claim C2: total-size priority -/

/-- C2 counterexample: a tree with no Group `READ FORMAT CAPACITIES` carrying
`00h(3000)` (the section is a Scalar) and with the Scalar `READ CAPACITY`
present; the claim demands the `READ CAPACITY` fallback, but the code indexes
the scalar with a string and raises `TypeError`, which `except KeyError` does
not catch. -/
theorem total_size_scalar_rfc_counterexample :
    hasGroupSub c2ctree kRFC k00h = false
      ∧ dictLookup kRC c2ctree = some (SectionValue.scalar "100*2048".toList)
      ∧ totalSizeStep c2ctree = .error .typeError :=
  ⟨rfl, rfl, rfl⟩

/-- C2 amended: the two-step priority holds whenever `READ FORMAT
CAPACITIES` is absent or a Group: a Group `READ FORMAT CAPACITIES` with
sub-field `00h(3000)` always wins; otherwise, when the section is absent or a
Group lacking the sub-field, the Scalar `READ CAPACITY` is used; in either
case the leading integer before `*` is multiplied by 2048.  (When the section
is present as a Scalar the step instead raises `TypeError`.) -/
theorem total_size_priority_amended :
    (∀ (t : MediaInfoTree) (g : List (List Char × List Char))
        (v : List Char) (n : Int),
        dictLookup kRFC t = some (SectionValue.group g) →
        dictLookup k00h g = some v →
        pyInt? (firstPart v) = some n →
        totalSizeStep t = .ok (n * 2048))
  ∧ (∀ (t : MediaInfoTree) (s : List Char) (n : Int),
        hasGroupSub t kRFC k00h = false →
        isScalarAt t kRFC = false →
        dictLookup kRC t = some (SectionValue.scalar s) →
        pyInt? (firstPart s) = some n →
        totalSizeStep t = .ok (n * 2048)) := by
  constructor
  · intro t g v n h1 h2 h3
    simp only [totalSizeStep, h1, h2, h3]
  · intro t s n hng hns hrc hint
    have hfb : totalFallback t = .ok (n * 2048) := by
      simp only [totalFallback, hrc, hint]
    cases h : dictLookup kRFC t with
    | none => simp only [totalSizeStep, h]; exact hfb
    | some sv =>
      cases sv with
      | scalar str =>
        rw [isScalarAt, h] at hns
        exact absurd hns (by simp)
      | group g =>
        cases h2 : dictLookup k00h g with
        | some v =>
          simp [hasGroupSub, h, h2] at hng
        | none => simp only [totalSizeStep, h, h2]; exact hfb

/-- C2 witness: both priority steps at concrete trees (the Group wins over
the Scalar in the first tree; the Scalar is the fallback in the second). -/
theorem total_size_priority_amended_witness :
    totalSizeStep c2atree = .ok (11826176 * 2048)
      ∧ totalSizeStep c2btree = .ok (12088320 * 2048) :=
  ⟨total_size_priority_amended.1 c2atree
      [(k00h, "11826176*2048=24220008448".toList)]
      ("11826176*2048=24220008448".toList) 11826176 rfl rfl rfl,
   total_size_priority_amended.2 c2btree
      ("12088320*2048=24756879360".toList) 12088320 rfl rfl rfl rfl⟩

/-! ### Claim C7: missing total-size candidates or disc status -/

/-- C7 counterexample: a tree with neither total-size candidate (no Group
`READ FORMAT CAPACITIES` with `00h(3000)`, no `READ CAPACITY` entry) and no
disc-status field, yet the resolver fails with `TypeError` — not with the
`KeyError` that realises the spec's `MissingFieldError` — because the
`READ FORMAT CAPACITIES` section is a Scalar. -/
theorem missing_field_typeerror_counterexample :
    hasGroupSub c7tree kRFC k00h = false
      ∧ dictLookup kRC c7tree = none
      ∧ dictLookup kRDI c7tree = none
      ∧ resolveMediaInfo c7tree = .error .typeError
      ∧ PyError.typeError ≠ PyError.keyError :=
  ⟨rfl, rfl, rfl, rfl, by decide⟩

/-- C7 amended: the resolver fails with `KeyError` (the realisation of the
spec's `MissingFieldError`), returning no record, (a) for every tree in which
neither total-size candidate is present and `READ FORMAT CAPACITIES` is not a
Scalar, and (b) for every tree whose total size resolves but whose
`READ DISC INFORMATION`/`Disc status` field is absent with `READ DISC
INFORMATION` not a Scalar.  (A Scalar in either position makes the failure a
`TypeError` instead, as the counterexample shows.) -/
theorem missing_field_keyerror_amended :
    (∀ t : MediaInfoTree,
        hasGroupSub t kRFC k00h = false →
        isScalarAt t kRFC = false →
        dictLookup kRC t = none →
        resolveMediaInfo t = .error .keyError)
  ∧ (∀ (t : MediaInfoTree) (n : Int),
        totalSizeStep t = .ok n →
        hasGroupSub t kRDI kDS = false →
        isScalarAt t kRDI = false →
        resolveMediaInfo t = .error .keyError) := by
  constructor
  · intro t hng hns hrc
    have hfb : totalFallback t = .error .keyError := by
      simp only [totalFallback, hrc]
    have htot : totalSizeStep t = .error .keyError := by
      cases h : dictLookup kRFC t with
      | none => simp only [totalSizeStep, h]; exact hfb
      | some sv =>
        cases sv with
        | scalar str =>
          rw [isScalarAt, h] at hns
          exact absurd hns (by simp)
        | group g =>
          cases h2 : dictLookup k00h g with
          | some v =>
            simp [hasGroupSub, h, h2] at hng
          | none => simp only [totalSizeStep, h, h2]; exact hfb
    simp only [resolveMediaInfo, htot]
  · intro t n htot hng hns
    have hst : discStatusStep t = .error .keyError := by
      cases h : dictLookup kRDI t with
      | none => simp only [discStatusStep, h]
      | some sv =>
        cases sv with
        | scalar str =>
          rw [isScalarAt, h] at hns
          exact absurd hns (by simp)
        | group g =>
          cases h2 : dictLookup kDS g with
          | some v =>
            simp [hasGroupSub, h, h2] at hng
          | none => simp only [discStatusStep, h, h2]
    simp only [resolveMediaInfo, htot, hst]

/-- C7 witness: both amended branches at concrete trees (no total-size
candidate in the first; total size present but `Disc status` missing in the
second). -/
theorem missing_field_keyerror_amended_witness :
    resolveMediaInfo c7atree = .error .keyError
      ∧ resolveMediaInfo c7btree = .error .keyError :=
  ⟨missing_field_keyerror_amended.1 c7atree rfl rfl rfl,
   missing_field_keyerror_amended.2 c7btree (7 * 2048) rfl rfl rfl⟩

/-! ### Claim C6: the capacity-record invariant -/

/-- C6 counterexample: a report whose `Free Blocks` value exceeds the total
capacity; the resolver succeeds and returns a record with
`free_size > total_size` and a negative `used_size`, so the claimed
invariant `free_size <= total_size` (and non-negativity of `used_size`) does
not hold for every returned record. -/
theorem used_size_negative_counterexample :
    parse_media_info c6info = .ok ⟨2048, 204800, -202752, false⟩
      ∧ ((2048 : Int) < 204800)
      ∧ ((-202752 : Int) < 0) :=
  ⟨rfl, by decide, by decide⟩

/-- C6 amended: every record the resolver returns satisfies
`used_size = total_size - free_size`, hence
`used_size + free_size = total_size`; the bound `free_size <= total_size`
(and with it the non-negativity of `used_size`) is not enforced. -/
theorem used_size_derived_amended (info : List Char) (r : MediaInfo)
    (h : parse_media_info info = .ok r) :
    r.used_size = r.total_size - r.free_size
      ∧ r.used_size + r.free_size = r.total_size := by
  cases hb : build_media_info_tree info with
  | error e =>
    rw [parse_media_info, hb] at h
    exact absurd h (by simp)
  | ok t =>
    rw [parse_media_info, hb] at h
    have h1 := resolveMediaInfo_used h
    exact ⟨h1, by omega⟩

/-- C6 witness: the derived-size identities at a concrete parsed report. -/
theorem used_size_derived_amended_witness :
    (MediaInfo.mk 4096 4096 0 true).used_size
        = (MediaInfo.mk 4096 4096 0 true).total_size
          - (MediaInfo.mk 4096 4096 0 true).free_size
      ∧ (MediaInfo.mk 4096 4096 0 true).used_size
          + (MediaInfo.mk 4096 4096 0 true).free_size
        = (MediaInfo.mk 4096 4096 0 true).total_size :=
  used_size_derived_amended c6winfo ⟨4096, 4096, 0, true⟩ rfl

/-! ### Claim C3: values containing further colons -/

/-- C3 counterexample: a line whose value portion contains a further colon is
not parsed without error: `line.split(':')` yields three pieces and the
two-name unpacking raises `ValueError`, aborting the parse instead of storing
`12:34`. -/
theorem colon_value_line_counterexample :
    build_media_info_tree "Time: 12:34".toList = .error .valueError := rfl

/-- C3 amended: the builder does not split only on the first colon: for every
non-skipped line containing two or more colons (so the value portion after
the first colon itself contains a colon), `line.split(':')` produces more
than two pieces and the two-variable unpacking raises `ValueError`; the line
aborts the parse instead of being stored. -/
theorem colon_value_line_raises (line : List Char)
    (hnl : '\n' ∉ line)
    (h1 : pyStrip line ≠ [])
    (h2 : ¬line.head? = some ':')
    (hcount : 2 ≤ line.count ':') :
    build_media_info_tree line = .error .valueError := by
  rw [build_media_info_tree, pySplit_no_sep hnl]
  have hlen : (pySplit ':' line).length ≠ 2 := by
    rw [pySplit_length]
    omega
  rw [buildLines_cons_error [] (processLine_split_bad h1 h2 hlen)]

/-- C3 witness: the amended behaviour at a concrete two-colon line. -/
theorem colon_value_line_raises_witness :
    build_media_info_tree "Start Time: 10:42:07".toList = .error .valueError :=
  colon_value_line_raises "Start Time: 10:42:07".toList
    (by decide) (by decide) (by decide) (by decide)

/-! ### Claim C4: totality of the builder -/

/-- C4 counterexample: a non-blank line with no colon at all is not skipped:
`line.split(':')` yields a single piece and the two-variable unpacking raises
`ValueError`, so `build_media_info_tree` raises instead of returning a
tree. -/
theorem build_not_total_counterexample :
    build_media_info_tree "hello".toList = .error .valueError := rfl

theorem buildLines_wf :
    ∀ (ls : List (List Char)) (st : BuildState),
      wfLinesAux ls st.current.isSome = true →
      ∃ t, buildLines ls st = .ok t := by
  intro ls
  induction ls with
  | nil => intro st _; exact ⟨st.tree, rfl⟩
  | cons l ls ih =>
    intro st h
    by_cases h1 : pyStrip l = []
    · rw [wfLinesAux, if_pos h1] at h
      rw [buildLines_cons_ok ls (processLine_skip (by simp [skipLine, h1]))]
      exact ih st h
    · by_cases h2 : l.head? = some ':'
      · rw [wfLinesAux, if_neg h1, if_pos h2] at h
        rw [buildLines_cons_ok ls (processLine_skip (by simp [skipLine, h2]))]
        exact ih st h
      · by_cases h3 : l.head? = some ' '
        · rw [wfLinesAux, if_neg h1, if_neg h2, if_pos h3] at h
          rw [Bool.and_eq_true, Bool.and_eq_true, decide_eq_true_eq] at h
          obtain ⟨⟨hlen, hop⟩, hrec⟩ := h
          obtain ⟨ck, hck⟩ := Option.isSome_iff_exists.mp hop
          obtain ⟨a, b, hp⟩ : ∃ a b, pySplit ':' l = [a, b] := by
            rcases hq : pySplit ':' l with _ | ⟨a, _ | ⟨b, _ | ⟨c, ds⟩⟩⟩ <;>
              rw [hq] at hlen <;> simp at hlen
            exact ⟨a, b, rfl⟩
          rw [buildLines_cons_ok ls (processLine_indent_ok h1 h3 hp hck)]
          exact ih _ (by simpa [hck] using hrec)
        · rw [wfLinesAux, if_neg h1, if_neg h2, if_neg h3] at h
          rcases hp : pySplit ':' l with _ | ⟨a, _ | ⟨b, _ | ⟨c, ds⟩⟩⟩ <;>
            rw [hp] at h
          · simp at h
          · simp at h
          · by_cases hb : pyStrip b = []
            · rw [buildLines_cons_ok ls
                (processLine_top_group h1 h2 h3 hp hb)]
              exact ih _ (by simpa [hb] using h)
            · rw [buildLines_cons_ok ls
                (processLine_top_scalar h1 h2 h3 hp hb)]
              exact ih _ (by simpa [hb] using h)
          · simp at h

/-- C4 amended: `build_media_info_tree` is not total — a malformed line
raises `ValueError` instead of being skipped (see the counterexample) — but
it does return a tree for every input in which each non-skipped line
contains exactly one colon and indented lines occur only while a group is
open. -/
theorem build_total_on_wf_amended (info : List Char)
    (h : wfReport info = true) :
    ∃ t, build_media_info_tree info = .ok t := by
  rw [build_media_info_tree]
  exact buildLines_wf _ ⟨[], none⟩ h

/-- C4 witness: totality at a concrete well-formed report. -/
theorem build_total_on_wf_amended_witness :
    ∃ t,
      build_media_info_tree
        "READ CAPACITY: 1*2048\nREAD DISC INFORMATION:\n Disc status: blank".toList
        = .ok t :=
  build_total_on_wf_amended
    "READ CAPACITY: 1*2048\nREAD DISC INFORMATION:\n Disc status: blank".toList
    (by decide)

/-! ### Claim C9: indented line before any group header -/

/-- C9: for every input whose first non-skipped line starts with a space
(before any group header has opened), the builder raises an exception — a
`TypeError` from `None[...]` when the line has exactly one colon, a
`ValueError` from the unpacking otherwise — rather than skipping the line. -/
theorem indented_line_without_group_fails (info : List Char)
    (pre rest : List (List Char)) (l : List Char)
    (hsplit : pySplit '\n' info = pre ++ l :: rest)
    (hpre : ∀ p ∈ pre, skipLine p = true)
    (hskip : skipLine l = false)
    (hhead : l.head? = some ' ') :
    raisesException (build_media_info_tree info) = true := by
  rw [build_media_info_tree, hsplit, buildLines_skip_prefix _ _ hpre]
  have h1 : pyStrip l ≠ [] := by
    intro hnil
    rw [skipLine] at hskip
    simp [hnil] at hskip
  by_cases hlen : (pySplit ':' l).length = 2
  · obtain ⟨a, b, hp⟩ : ∃ a b, pySplit ':' l = [a, b] := by
      rcases hq : pySplit ':' l with _ | ⟨a, _ | ⟨b, _ | ⟨c, ds⟩⟩⟩ <;>
        rw [hq] at hlen <;> simp at hlen
      exact ⟨a, b, rfl⟩
    rw [buildLines_cons_error rest (processLine_indent_none h1 hhead hp rfl)]
    rfl
  · have h2 : ¬l.head? = some ':' := by rw [hhead]; simp
    rw [buildLines_cons_error rest (processLine_split_bad h1 h2 hlen)]
    rfl

/-- C9 witness: a report whose very first line is indented. -/
theorem indented_line_without_group_fails_witness :
    raisesException (build_media_info_tree " Free Blocks: 1*2KB".toList) = true :=
  indented_line_without_group_fails " Free Blocks: 1*2KB".toList [] []
    (" Free Blocks: 1*2KB".toList) rfl (by simp) (by decide) rfl

/-! ### Claim C10: duplicate top-level section names -/

theorem mem_topLine_colon (k v : List Char) : ':' ∈ topLine k v := by
  rw [topLine]
  exact List.mem_append_right _ (by simp)

theorem not_mem_topLine {c : Char} {k v : List Char} (hc : c ≠ ':')
    (hk : c ∉ k) (hv : c ∉ v) : c ∉ topLine k v := by
  rw [topLine]
  intro h
  rcases List.mem_append.mp h with h | h
  · exact hk h
  · rcases List.mem_cons.mp h with h | h
    · exact hc h
    · exact hv h

theorem pySplit_topLine {k v : List Char} (hk : ':' ∉ k) (hv : ':' ∉ v) :
    pySplit ':' (topLine k v) = [k, v] := by
  rw [topLine, pySplit_append _ hk, pySplit_no_sep hv]

theorem head?_topLine {k : List Char} (v : List Char) (hne : k ≠ []) :
    (topLine k v).head? = k.head? :=
  head?_append_of_ne_nil _ hne

theorem strip_topLine_ne_nil (k v : List Char) : pyStrip (topLine k v) ≠ [] :=
  pyStrip_ne_nil (mem_topLine_colon k v) (by decide)

theorem head?_ne_of_not_mem {c : Char} {k : List Char} (h : c ∉ k) :
    k.head? ≠ some c := by
  intro hh
  cases k with
  | nil => simp at hh
  | cons x xs =>
    rw [List.head?_cons, Option.some.injEq] at hh
    subst hh
    exact h (List.mem_cons_self x xs)

theorem mem_subLine_colon (sk sv : List Char) : ':' ∈ subLine sk sv := by
  rw [subLine]
  exact List.mem_cons_of_mem _ (List.mem_append_right _ (by simp))

theorem not_mem_subLine {c : Char} {sk sv : List Char} (hsp : c ≠ ' ')
    (hc : c ≠ ':') (hsk : c ∉ sk) (hsv : c ∉ sv) : c ∉ subLine sk sv := by
  rw [subLine]
  intro h
  rcases List.mem_cons.mp h with h | h
  · exact hsp h
  · rcases List.mem_append.mp h with h | h
    · exact hsk h
    · rcases List.mem_cons.mp h with h | h
      · exact hc h
      · exact hsv h

theorem strip_subLine_ne_nil (sk sv : List Char) :
    pyStrip (subLine sk sv) ≠ [] :=
  pyStrip_ne_nil (mem_subLine_colon sk sv) (by decide)

theorem pySplit_subLine {sk sv : List Char} (hsk : ':' ∉ sk)
    (hsv : ':' ∉ sv) : pySplit ':' (subLine sk sv) = [' ' :: sk, sv] := by
  have h : ':' ∉ ' ' :: sk := by
    intro h
    rcases List.mem_cons.mp h with h | h
    · exact absurd h (by decide)
    · exact hsk h
  rw [show subLine sk sv = (' ' :: sk) ++ ':' :: sv from rfl,
    pySplit_append _ h, pySplit_no_sep hsv]

theorem pySplit_lines3 {l1 l2 l3 : List Char} (h1 : '\n' ∉ l1)
    (h2 : '\n' ∉ l2) (h3 : '\n' ∉ l3) :
    pySplit '\n' (lines3 l1 l2 l3) = [l1, l2, l3] := by
  rw [lines3, List.append_assoc, List.cons_append,
    pySplit_append _ h1, pySplit_append _ h2, pySplit_no_sep h3]

theorem dictInsert_nil {β : Type} (k : List Char) (v : β) :
    dictInsert k v [] = [(k, v)] := rfl

theorem dictInsert_replace {β : Type} (k : List Char) (v v' : β)
    (rest : List (List Char × β)) :
    dictInsert k v ((k, v') :: rest) = (k, v) :: rest := by
  simp [dictInsert]

theorem updateGroup_single (k sk sv : List Char)
    (fs : List (List Char × List Char)) :
    updateGroup [(k, SectionValue.group fs)] k sk sv
      = [(k, SectionValue.group (dictInsert sk sv fs))] := by
  simp [updateGroup]

/-- C10: when the same top-level section name occurs twice, the built tree
maps it to the value of the last occurrence: a later group header discards an
earlier scalar value under the same name and subsequent indented lines
attach to the newest open group (first conjunct); a later scalar discards an
earlier group together with its sub-fields (second conjunct). -/
theorem duplicate_section_last_write_wins (k a sk sv : List Char)
    (hk1 : ':' ∉ k) (hk2 : '\n' ∉ k) (hk3 : k.head? ≠ some ' ')
    (hk4 : k ≠ [])
    (ha1 : ':' ∉ a) (ha2 : '\n' ∉ a) (ha3 : pyStrip a ≠ [])
    (hsk1 : ':' ∉ sk) (hsk2 : '\n' ∉ sk)
    (hsv1 : ':' ∉ sv) (hsv2 : '\n' ∉ sv) :
    build_media_info_tree
        (lines3 (topLine k a) (topLine k []) (subLine sk sv))
      = .ok [(pyStrip k, SectionValue.group [(pyStrip sk, pyStrip sv)])]
  ∧ build_media_info_tree
        (lines3 (topLine k []) (subLine sk sv) (topLine k a))
      = .ok [(pyStrip k, SectionValue.scalar (pyStrip a))] := by
  have hnlA : '\n' ∉ topLine k a := not_mem_topLine (by decide) hk2 ha2
  have hnlG : '\n' ∉ topLine k [] := not_mem_topLine (by decide) hk2 (by simp)
  have hnlS : '\n' ∉ subLine sk sv :=
    not_mem_subLine (by decide) (by decide) hsk2 hsv2
  have hhc : ∀ v : List Char, ¬(topLine k v).head? = some ':' := fun v => by
    rw [head?_topLine v hk4]
    exact head?_ne_of_not_mem hk1
  have hhs : ∀ v : List Char, ¬(topLine k v).head? = some ' ' := fun v => by
    rw [head?_topLine v hk4]
    exact hk3
  constructor
  · rw [build_media_info_tree, pySplit_lines3 hnlA hnlG hnlS,
      buildLines_cons_ok _
        (processLine_top_scalar (strip_topLine_ne_nil k a) (hhc a) (hhs a)
          (pySplit_topLine hk1 ha1) ha3),
      buildLines_cons_ok _
        (processLine_top_group (strip_topLine_ne_nil k []) (hhc []) (hhs [])
          (pySplit_topLine hk1 (by simp)) rfl),
      buildLines_cons_ok _
        (processLine_indent_ok (strip_subLine_ne_nil sk sv) rfl
          (pySplit_subLine hsk1 hsv1) rfl)]
    simp only [buildLines, dictInsert_nil, dictInsert_replace,
      updateGroup_single, pyStrip_cons_space]
  · rw [build_media_info_tree, pySplit_lines3 hnlG hnlS hnlA,
      buildLines_cons_ok _
        (processLine_top_group (strip_topLine_ne_nil k []) (hhc []) (hhs [])
          (pySplit_topLine hk1 (by simp)) rfl),
      buildLines_cons_ok _
        (processLine_indent_ok (strip_subLine_ne_nil sk sv) rfl
          (pySplit_subLine hsk1 hsv1) rfl),
      buildLines_cons_ok _
        (processLine_top_scalar (strip_topLine_ne_nil k a) (hhc a) (hhs a)
          (pySplit_topLine hk1 ha1) ha3)]
    simp only [buildLines, dictInsert_nil, dictInsert_replace,
      updateGroup_single, pyStrip_cons_space]

/-- C10 witness: both directions at a concrete duplicated section name. -/
theorem duplicate_section_last_write_wins_witness :
    build_media_info_tree
        (lines3 (topLine "GROUP".toList " one".toList)
          (topLine "GROUP".toList [])
          (subLine " Free Blocks".toList " 7*2KB".toList))
      = .ok [("GROUP".toList,
              SectionValue.group [("Free Blocks".toList, "7*2KB".toList)])]
  ∧ build_media_info_tree
        (lines3 (topLine "GROUP".toList [])
          (subLine " Free Blocks".toList " 7*2KB".toList)
          (topLine "GROUP".toList " one".toList))
      = .ok [("GROUP".toList, SectionValue.scalar "one".toList)] :=
  duplicate_section_last_write_wins "GROUP".toList " one".toList
    " Free Blocks".toList " 7*2KB".toList
    (by decide) (by decide) (by decide) (by decide) (by decide) (by decide)
    (by decide) (by decide) (by decide) (by decide) (by decide)

end DiscAppend
